import Mathlib

/-!
Verification of the sandbox lifecycle manager of `enhanced-fetch-mcp`.

The development shallowly embeds the state-manipulating code of
`src/sandbox-manager.ts` (container variant) and the browser-context manager
quoted in `CONTRIBUTING.md` (browser variant).  JavaScript `Map` objects are
modelled as association lists preserving insertion order (`Map.set` updates in
place or appends; `Map.delete` removes); driver (Docker / browser engine) calls
are modelled by explicit outcome parameters, and the calls issued to the driver
are recorded where a claim is about them.
-/

namespace EFetch

/-! ### JavaScript `Map` as an insertion-ordered association list -/

abbrev JsMap (α : Type) := List (String × α)

/-- `Map.get(k)`. -/
def mapGet {α : Type} (m : JsMap α) (k : String) : Option α :=
  (m.find? (fun p => p.1 == k)).map (fun p => p.2)

/-- `Map.set(k, v)`: updates the entry in place when the key is present
(preserving insertion order), otherwise appends a new entry at the end. -/
def mapSet {α : Type} (m : JsMap α) (k : String) (v : α) : JsMap α :=
  if m.any (fun p => p.1 == k) then
    m.map (fun p => if p.1 == k then (k, v) else p)
  else
    m ++ [(k, v)]

/-- `Map.delete(k)`. -/
def mapDelete {α : Type} (m : JsMap α) (k : String) : JsMap α :=
  m.filter (fun p => p.1 != k)

/-! ### Container-variant data model (`src/sandbox-manager.ts`, `src/types.ts`)

`env` (a list of `K=V` strings passed through to the driver) is carried along
unchanged by the manager and is irrelevant to every claim, so it is omitted
from the embedded configuration record. -/

inductive SandboxStatus
  | creating
  | running
  | paused
  | stopped
  | error
deriving DecidableEq

/-- Resolved sandbox configuration (after defaults are merged). -/
structure SandboxConfig where
  image : String
  memoryLimit : String
  cpuLimit : Nat
  timeout : Nat
  autoRemove : Bool
  workDir : Option String
deriving DecidableEq

/-- Caller-supplied configuration: every field optional, merged over defaults
by object spread in `createSandbox`. -/
structure PartialSandboxConfig where
  image : Option String := none
  memoryLimit : Option String := none
  cpuLimit : Option Nat := none
  timeout : Option Nat := none
  autoRemove : Option Bool := none
  workDir : Option String := none

/-- `{image: 'node:20-alpine', memoryLimit: '512m', cpuLimit: 1,
timeout: 300000, autoRemove: true, ...config}`. -/
def mergeConfig (c : PartialSandboxConfig) : SandboxConfig :=
  { image := c.image.getD "node:20-alpine"
    memoryLimit := c.memoryLimit.getD "512m"
    cpuLimit := c.cpuLimit.getD 1
    timeout := c.timeout.getD 300000
    autoRemove := c.autoRemove.getD true
    workDir := c.workDir }

structure SandboxInfo where
  id : String
  name : String
  status : SandboxStatus
  createdAt : Nat
  containerId : Option String := none
  config : SandboxConfig
deriving DecidableEq

abbrev Registry := JsMap SandboxInfo

/-- Manager error taxonomy, one constructor per thrown message shape. -/
inductive SbError
  /-- "Sandbox ... not found" -/
  | notFound
  /-- "Sandbox ... is not running" -/
  | notRunning
  /-- "Sandbox ... is not paused" -/
  | notPaused
  /-- "Sandbox ... not found or not running" (thrown by `getSandboxStats`) -/
  | notFoundOrNotRunning
  /-- "Failed to create sandbox: ..." -/
  | createFailed
  /-- "Failed to pause sandbox: ..." -/
  | pauseFailed
  /-- "Failed to resume sandbox: ..." -/
  | resumeFailed
deriving DecidableEq

/-! ### `parseMemoryLimit` -/

/-- The `units` record: `{b: 1, k: 1024, m: 1024 ** 2, g: 1024 ** 3}`;
`none` for a key not in the record. -/
def unitsLookup (u : Char) : Option Nat :=
  if u = 'b' then some 1
  else if u = 'k' then some 1024
  else if u = 'm' then some (1024 ^ 2)
  else if u = 'g' then some (1024 ^ 3)
  else none

/-- `parseInt(value, 10)` on an all-digit string. -/
def digitsToNat (ds : List Char) : Nat :=
  ds.foldl (fun a c => a * 10 + (c.toNat - '0'.toNat)) 0

/-- `parseMemoryLimit`: the source lowercases the input (charwise, modelling
`toLowerCase`), matches it against the regex `^(\d+)([bkmg])$` — a nonempty
digit group followed by a single unit character ending the string — and
returns `parseInt(value, 10) * units[unit]`; a non-match throws (modelled as
`none`, which also makes `units` lookup failure a parse failure exactly as
the regex character class does). -/
def parseMemoryLimit (limit : String) : Option Nat :=
  let s := limit.toList.map Char.toLower
  match s.getLast? with
  | none => none
  | some u =>
    let ds := s.dropLast
    if ds ≠ [] ∧ ds.all Char.isDigit then
      (unitsLookup u).map (fun m => digitsToNat ds * m)
    else none

/-- Modelled from the claim's wording, not from the source: the accepted
memory-limit format is an integer (nonempty digit string) followed by exactly
one unit letter among b, k, m, g, case-insensitively. -/
def specMemoryFormat (s : String) : Prop :=
  ∃ ds u, s.toList = ds ++ [u] ∧ ds ≠ [] ∧ (∀ c ∈ ds, c.isDigit = true) ∧
    Char.toLower u ∈ ['b', 'k', 'm', 'g']

/-! ### Container creation parameters (`docker.createContainer` argument) -/

structure ContainerCreateParams where
  name : String
  image : String
  cmd : List String
  tty : Bool
  openStdin : Bool
  memory : Nat
  nanoCpus : Nat
  autoRemove : Bool
  networkMode : String
  workingDir : String
deriving DecidableEq

/-- The argument object `createSandbox` passes to `docker.createContainer`;
`none` when `parseMemoryLimit` throws while the argument is evaluated. -/
def createContainerParams (sandboxId : String) (cfg : SandboxConfig) :
    Option ContainerCreateParams :=
  (parseMemoryLimit cfg.memoryLimit).map fun mem =>
    { name := "sandbox-" ++ sandboxId
      image := cfg.image
      cmd := ["/bin/sh"]
      tty := true
      openStdin := true
      memory := mem
      nanoCpus := cfg.cpuLimit * 1000000000
      autoRemove := cfg.autoRemove
      networkMode := "bridge"
      workingDir := cfg.workDir.getD "/workspace" }

/-! ### Output demultiplexer (`executeInSandbox` stream handler)

The handler runs per delivered chunk:
`if (chunk[0] === 1) stdout += data.substring(8)` and symmetrically for `2`,
where `data = chunk.toString()`.  Chunks are modelled as byte lists; for the
byte values exercised here (all below 0x80) dropping 8 decoded characters
coincides with dropping 8 bytes. -/

def demuxChunk (acc : List Nat × List Nat) (chunk : List Nat) :
    List Nat × List Nat :=
  match chunk.head? with
  | some 1 => (acc.1 ++ chunk.drop 8, acc.2)
  | some 2 => (acc.1, acc.2 ++ chunk.drop 8)
  | _ => acc

def demuxChunks (chunks : List (List Nat)) : List Nat × List Nat :=
  chunks.foldl demuxChunk ([], [])

/-! Reference model of the driver-side stream encoding (Docker's attach
protocol, non-TTY mode): each frame is an 8-byte header — stream tag
(1 = stdout, 2 = stderr), three zero bytes, payload length as a 32-bit
big-endian integer — followed by the payload. -/

structure Frame where
  tag : Nat
  payload : List Nat
deriving DecidableEq

def be32 (n : Nat) : List Nat :=
  [n / 2 ^ 24 % 256, n / 2 ^ 16 % 256, n / 2 ^ 8 % 256, n % 256]

def encodeFrame (f : Frame) : List Nat :=
  f.tag :: 0 :: 0 :: 0 :: (be32 f.payload.length ++ f.payload)

def encodeFrames (fs : List Frame) : List Nat :=
  (fs.map encodeFrame).flatten

/-- The original byte sequence of the stream tagged `t`. -/
def streamBytes (fs : List Frame) (t : Nat) : List Nat :=
  ((fs.filter (fun f => f.tag == t)).map Frame.payload).flatten

/-! ### JavaScript `String.prototype.trim` -/

/-- JS `WhiteSpace`/`LineTerminator` characters relevant here (ASCII subset
plus NBSP). -/
def jsIsWhitespaceChar (c : Char) : Bool :=
  c = ' ' ∨ c = '\t' ∨ c = '\n' ∨ c = '\r' ∨
  c = Char.ofNat 11 ∨ c = Char.ofNat 12 ∨ c = Char.ofNat 160

def jsTrimList (l : List Char) : List Char :=
  ((l.dropWhile jsIsWhitespaceChar).reverse.dropWhile jsIsWhitespaceChar).reverse

def jsTrim (s : String) : String :=
  String.mk (jsTrimList s.toList)

/-- Accumulated bytes rendered as the JS string the handler built; all bytes
exercised by the claims are below 0x80, where UTF-8 decoding is the identity
on code points. -/
def bytesToString (bs : List Nat) : String :=
  String.mk (bs.map Char.ofNat)

/-! ### Lifecycle operations

Each operation is a pure function of the registry plus explicit parameters
standing for the non-deterministic inputs of the original (generated id,
current time, driver outcomes).  It returns the thrown-or-returned value and
the updated registry; where a claim is about driver interaction, the calls
issued to the driver are returned as a trace. -/

/-- `createSandbox(name, config)`.  `driverResp` is the combined outcome of
`docker.createContainer` + `container.start` (`.ok containerId` /
`.error message`).  Mirrors the source: a `creating` entry is inserted first;
any throw inside the `try` (including `parseMemoryLimit`) sets the entry's
status to `error` and rethrows as "Failed to create sandbox". -/
def createSandbox (reg : Registry) (sandboxId name : String)
    (config : PartialSandboxConfig) (now : Nat)
    (driverResp : Except String String) :
    Except SbError SandboxInfo × Registry :=
  let defaultConfig := mergeConfig config
  let info : SandboxInfo :=
    { id := sandboxId, name := name, status := .creating, createdAt := now
      containerId := none, config := defaultConfig }
  let reg1 := mapSet reg sandboxId info
  match createContainerParams sandboxId defaultConfig with
  | none =>
      (.error .createFailed, mapSet reg1 sandboxId { info with status := .error })
  | some _params =>
      match driverResp with
      | .error _msg =>
          (.error .createFailed,
            mapSet reg1 sandboxId { info with status := .error })
      | .ok containerId =>
          let info2 := { info with containerId := some containerId
                                   status := SandboxStatus.running }
          (.ok info2, mapSet reg1 sandboxId info2)

structure ExecuteResult where
  stdout : String
  stderr : String
  exitCode : Int
deriving DecidableEq

/-- `executeInSandbox(sandboxId, command)`.  `chunks` are the byte chunks the
driver's exec stream delivers; `exitCode` is `exec.inspect().ExitCode`
(`null` modelled as `none`; `ExitCode || 0` is `.getD 0`). -/
def executeInSandbox (reg : Registry) (sandboxId : String)
    (chunks : List (List Nat)) (exitCode : Option Int) :
    Except SbError ExecuteResult :=
  match mapGet reg sandboxId with
  | none => .error .notFound
  | some sandbox =>
      if sandbox.status ≠ .running then .error .notRunning
      else
        let acc := demuxChunks chunks
        .ok { stdout := jsTrim (bytesToString acc.1)
              stderr := jsTrim (bytesToString acc.2)
              exitCode := exitCode.getD 0 }

/-- `pauseSandbox(sandboxId)`; `driverOk` is the outcome of `container.pause()`. -/
def pauseSandbox (reg : Registry) (sandboxId : String) (driverOk : Bool) :
    Except SbError Unit × Registry :=
  match mapGet reg sandboxId with
  | none => (.error .notFound, reg)
  | some sandbox =>
      if sandbox.status ≠ .running then (.error .notRunning, reg)
      else if driverOk then
        (.ok (), mapSet reg sandboxId { sandbox with status := .paused })
      else (.error .pauseFailed, reg)

/-- `resumeSandbox(sandboxId)`; `driverOk` is the outcome of `container.unpause()`. -/
def resumeSandbox (reg : Registry) (sandboxId : String) (driverOk : Bool) :
    Except SbError Unit × Registry :=
  match mapGet reg sandboxId with
  | none => (.error .notFound, reg)
  | some sandbox =>
      if sandbox.status ≠ .paused then (.error .notPaused, reg)
      else if driverOk then
        (.ok (), mapSet reg sandboxId { sandbox with status := .running })
      else (.error .resumeFailed, reg)

/-- Driver-side teardown calls `cleanupSandbox` can issue. -/
inductive DriverCall
  /-- `container.stop({t: 10})` -/
  | stop (containerId : String)
  /-- `container.remove({force: true})` -/
  | remove (containerId : String)
deriving DecidableEq

structure CleanupOutcome where
  result : Except SbError Unit
  reg : Registry
  driverCalls : List DriverCall

/-- `cleanupSandbox(sandboxId)`.  Driver stop/remove failures are swallowed
(`catch` with empty body), so their outcomes do not influence control flow;
`remove` is only issued when `autoRemove` is off.  On success the entry is
deleted from the registry. -/
def cleanupSandbox (reg : Registry) (sandboxId : String) : CleanupOutcome :=
  match mapGet reg sandboxId with
  | none => { result := .error .notFound, reg := reg, driverCalls := [] }
  | some sandbox =>
      let calls :=
        match sandbox.containerId with
        | none => []
        | some cid =>
            DriverCall.stop cid ::
              (if sandbox.config.autoRemove then [] else [DriverCall.remove cid])
      { result := .ok (), reg := mapDelete reg sandboxId, driverCalls := calls }

/-- `getSandbox(sandboxId)`. -/
def getSandbox (reg : Registry) (sandboxId : String) : Option SandboxInfo :=
  mapGet reg sandboxId

/-- `listSandboxes()`: `Array.from(this.sandboxes.values())`. -/
def listSandboxes (reg : Registry) : List SandboxInfo :=
  reg.map (fun p => p.2)

/-- `getSandboxStats(sandboxId)`: throws "not found or not running" only when
the entry is absent or has no container id; otherwise it forwards a
`container.stats` request to the driver for that container id (the returned
container id stands for the forwarded request). -/
def getSandboxStats (reg : Registry) (sandboxId : String) :
    Except SbError String :=
  match mapGet reg sandboxId with
  | none => .error .notFoundOrNotRunning
  | some sandbox =>
      match sandbox.containerId with
      | none => .error .notFoundOrNotRunning
      | some cid => .ok cid

/-! ### Auto-cleanup timers

`createSandbox` schedules `setTimeout(() => cleanupSandbox(id), timeout)` on
the success path when `timeout` is truthy (non-zero).  Timers are modelled as
`(fireAt, sandboxId)` pairs; firing due timers runs `cleanupSandbox` for each,
swallowing errors (`.catch(console.error)`). -/

structure SchedState where
  reg : Registry
  timers : List (Nat × String)
deriving DecidableEq

/-- `createSandbox` plus its timer scheduling. -/
def createSandboxT (s : SchedState) (sandboxId name : String)
    (config : PartialSandboxConfig) (now : Nat)
    (driverResp : Except String String) :
    Except SbError SandboxInfo × SchedState :=
  let r := createSandbox s.reg sandboxId name config now driverResp
  match r.1 with
  | .ok info =>
      (r.1, { reg := r.2
              timers :=
                if info.config.timeout ≠ 0 then
                  s.timers ++ [(now + info.config.timeout, sandboxId)]
                else s.timers })
  | .error _ => (r.1, { reg := r.2, timers := s.timers })

/-- The event loop firing every timer due at or before `now`; each fired timer
runs `cleanupSandbox` with errors swallowed. -/
def fireDueTimers (s : SchedState) (now : Nat) : SchedState :=
  let due := s.timers.filter (fun t => t.1 ≤ now)
  let rest := s.timers.filter (fun t => ¬ t.1 ≤ now)
  { reg := due.foldl (fun r t => (cleanupSandbox r t.2).reg) s.reg
    timers := rest }

/-! ### Browser-variant model (browser manager quoted in `CONTRIBUTING.md`)

Page handles and page content are opaque driver values, modelled as strings.
`pages` is a JS `Map` from page id to page handle; navigation always inserts a
freshly generated page id, so insertion appends at the end. -/

inductive CtxStatus
  | active
  | closed
deriving DecidableEq

structure ManagedContext where
  id : String
  status : CtxStatus
  pages : JsMap String
  lastAccessedAt : Nat
deriving DecidableEq

abbrev CtxMap := JsMap ManagedContext

inductive BrowserErrorCode
  | contextNotFound
  | pageNotFound
  | navigationFailed
  | navigationTimeout
deriving DecidableEq

/-- `getManagedContext(contextId)`: throws `CONTEXT_NOT_FOUND` both when the
id is absent and when the context is not `active`. -/
def getManagedContext (ctxs : CtxMap) (contextId : String) :
    Except BrowserErrorCode ManagedContext :=
  match mapGet ctxs contextId with
  | none => .error .contextNotFound
  | some c => if c.status = .active then .ok c else .error .contextNotFound

/-- `getPage(contextId, pageId?)`: with no page id, takes
`pages[pages.length - 1]` of `Array.from(pages.values())` — the most recently
inserted page — throwing `PAGE_NOT_FOUND` when the context has no pages. -/
def getPage (ctxs : CtxMap) (contextId : String) (pageId : Option String) :
    Except BrowserErrorCode String :=
  match getManagedContext ctxs contextId with
  | .error e => .error e
  | .ok c =>
      match pageId with
      | none =>
          match (c.pages.map (fun p => p.2)).getLast? with
          | none => .error .pageNotFound
          | some page => .ok page
      | some pid =>
          match mapGet c.pages pid with
          | none => .error .pageNotFound
          | some page => .ok page

/-- Does the haystack start with the needle? -/
def startsWithList : List Char → List Char → Bool
  | [], _ => true
  | _ :: _, [] => false
  | a :: n, b :: l => a == b && startsWithList n l

/-- `String.prototype.includes`, at the character-list level. -/
def containsList (n : List Char) : List Char → Bool
  | [] => startsWithList n []
  | b :: t => startsWithList n (b :: t) || containsList n t

/-- `error.message.toLowerCase().includes('timeout')` (charwise lowering, as
for `parseMemoryLimit`). -/
def errorMessageHasTimeout (msg : String) : Bool :=
  containsList "timeout".toList (msg.toList.map Char.toLower)

/-- `navigate(contextId, url, options)`.  `newPageId` stands for the generated
page id, `pageHandle` for the driver's new page, and `gotoOutcome` for the
combined outcome of `context.newPage()` + `page.goto(...)` (`.error msg`
carries the driver error message).  The page is stored in the context's page
map only after `goto` succeeds; `lastAccessedAt` is mutated on the shared
entry before `goto` runs, so it is updated even on failure. -/
def navigate (ctxs : CtxMap) (contextId newPageId pageHandle : String)
    (now : Nat) (gotoOutcome : Except String Unit) :
    Except BrowserErrorCode String × CtxMap :=
  match getManagedContext ctxs contextId with
  | .error e => (.error e, ctxs)
  | .ok c =>
      let c1 := { c with lastAccessedAt := now }
      match gotoOutcome with
      | .error msg =>
          let errorCode :=
            if errorMessageHasTimeout msg then
              BrowserErrorCode.navigationTimeout
            else BrowserErrorCode.navigationFailed
          (.error errorCode, mapSet ctxs contextId c1)
      | .ok _ =>
          let c2 := { c1 with pages := mapSet c1.pages newPageId pageHandle }
          (.ok newPageId, mapSet ctxs contextId c2)

/-- `getPageContent(contextId, pageId?)`.  `contentOf` maps a page handle to
the HTML `page.content()` returns. -/
def getPageContent (ctxs : CtxMap) (contextId : String)
    (pageId : Option String) (contentOf : String → String) (now : Nat) :
    Except BrowserErrorCode String × CtxMap :=
  match getPage ctxs contextId pageId with
  | .error e => (.error e, ctxs)
  | .ok page =>
      match mapGet ctxs contextId with
      | none => (.error .contextNotFound, ctxs)
      | some c =>
          (.ok (contentOf page),
            mapSet ctxs contextId { c with lastAccessedAt := now })

structure JavaScriptResult where
  success : Bool
  result : Option String
  error : Option String
deriving DecidableEq

/-- `executeJavaScript(contextId, script, pageId?)`.  `evalOutcome` is the
outcome of `page.evaluate(script)`.  An evaluation failure is returned as
`{success: false, error: message}` — data, not a thrown error. -/
def executeJavaScript (ctxs : CtxMap) (contextId : String)
    (pageId : Option String) (evalOutcome : Except String String) (now : Nat) :
    Except BrowserErrorCode JavaScriptResult × CtxMap :=
  match getPage ctxs contextId pageId with
  | .error e => (.error e, ctxs)
  | .ok _page =>
      let ctxs1 :=
        match mapGet ctxs contextId with
        | none => ctxs
        | some c => mapSet ctxs contextId { c with lastAccessedAt := now }
      match evalOutcome with
      | .ok v => (.ok { success := true, result := some v, error := none }, ctxs1)
      | .error msg =>
          (.ok { success := false, result := none, error := some msg }, ctxs1)

/-! ### Concrete fixtures used by counterexamples and witnesses -/

def sampleConfig : SandboxConfig := mergeConfig {}

/-- A paused sandbox holding a container handle (reachable by
`create` → `pause`). -/
def pausedInfo : SandboxInfo :=
  { id := "s1", name := "demo", status := .paused, createdAt := 0
    containerId := some "c1", config := sampleConfig }

def pausedReg : Registry := [("s1", pausedInfo)]

/-- A running sandbox holding a container handle. -/
def runningInfo : SandboxInfo :=
  { id := "s0", name := "demo", status := .running, createdAt := 0
    containerId := some "c0", config := sampleConfig }

def runningReg : Registry := [("s0", runningInfo)]

/-- An active browser context with two pages, the second created last. -/
def twoPageCtx : ManagedContext :=
  { id := "ctx1", status := .active
    pages := [("p1", "h1"), ("p2", "h2")], lastAccessedAt := 0 }

def twoPageCtxs : CtxMap := [("ctx1", twoPageCtx)]

/-! ### Helper lemmas: the association-list map -/

theorem mapGet_set_self {α : Type} (m : JsMap α) (k : String) (v : α) :
    mapGet (mapSet m k v) k = some v := by
  unfold mapSet
  by_cases h : m.any (fun p => p.1 == k)
  · simp only [h, if_true]
    induction m with
    | nil => simp at h
    | cons p t ih =>
      by_cases hp : p.1 == k
      · simp [mapGet, List.find?, hp]
      · simp only [List.any_cons, hp, Bool.false_or] at h
        simp only [List.map_cons, if_neg (by simpa using hp)]
        have := ih h
        simpa [mapGet, List.find?, hp] using this
  · simp only [h, if_false]
    induction m with
    | nil => simp [mapGet, List.find?]
    | cons p t ih =>
      simp only [List.any_cons, Bool.or_eq_true, not_or] at h
      have hp : (p.1 == k) = false := by
        cases hpk : (p.1 == k) <;> simp_all
      simp only [List.cons_append]
      have := ih (by simpa using h.2)
      simpa [mapGet, List.find?, hp] using this

theorem mapGet_delete_self {α : Type} (m : JsMap α) (k : String) :
    mapGet (mapDelete m k) k = none := by
  induction m with
  | nil => simp [mapGet, mapDelete]
  | cons p t ih =>
    by_cases hp : p.1 == k
    · have hne : (p.1 != k) = false := by simp_all [bne]
      simpa [mapDelete, List.filter_cons, hne] using ih
    · have hne : (p.1 != k) = true := by simp_all [bne]
      simp only [mapDelete, List.filter_cons, hne, if_true]
      simp only [mapGet, List.find?, hp, mapDelete] at ih ⊢
      exact ih

theorem mapGet_eq_none_iff {α : Type} (m : JsMap α) (k : String) :
    mapGet m k = none ↔ ∀ p ∈ m, p.1 ≠ k := by
  constructor
  · intro h p hp
    simp only [mapGet, Option.map_eq_none', List.find?_eq_none] at h
    have := h p hp
    simpa using this
  · intro h
    simp only [mapGet, Option.map_eq_none', List.find?_eq_none]
    intro p hp
    simpa using h p hp

theorem mem_mapSet {α : Type} {m : JsMap α} {k : String} {v : α}
    {q : String × α} (hq : q ∈ mapSet m k v) : q ∈ m ∨ q = (k, v) := by
  unfold mapSet at hq
  by_cases h : m.any (fun p => p.1 == k)
  · rw [if_pos h] at hq
    obtain ⟨p, hp, hpq⟩ := List.mem_map.mp hq
    by_cases hk : p.1 == k
    · right
      rw [if_pos hk] at hpq
      exact hpq.symm
    · left
      rw [if_neg hk] at hpq
      exact hpq ▸ hp
  · rw [if_neg h] at hq
    rcases List.mem_append.mp hq with h1 | h1
    · exact Or.inl h1
    · exact Or.inr (List.mem_singleton.mp h1)

/-! ### Helper lemmas: characters -/

theorem toNat_ofNat_valid (n : Nat) (h : n.isValidChar) :
    (Char.ofNat n).toNat = n := by
  rw [Char.ofNat, dif_pos h]
  rfl

theorem uint32_le_iff_toNat_le {a b : UInt32} : a ≤ b ↔ a.toNat ≤ b.toNat := by
  simp [UInt32.le_def, BitVec.le_def]
  rfl

theorem isDigit_toLower (c : Char) : (Char.toLower c).isDigit = c.isDigit := by
  rw [Char.toLower]
  split
  next h =>
    obtain ⟨h65, h90⟩ := h
    have hv : (c.toNat + 32).isValidChar := Or.inl (by omega)
    have h1 : (Char.ofNat (c.toNat + 32)).toNat = c.toNat + 32 :=
      toNat_ofNat_valid _ hv
    have hd1 : (Char.ofNat (c.toNat + 32)).isDigit = false := by
      simp only [Char.isDigit, Bool.and_eq_false_iff, decide_eq_false_iff_not]
      right
      intro hle
      have h3 : (Char.ofNat (c.toNat + 32)).val.toNat ≤ (57 : UInt32).toNat :=
        uint32_le_iff_toNat_le.mp hle
      have h4 : (Char.ofNat (c.toNat + 32)).val.toNat = c.toNat + 32 := h1
      have h57 : (57 : UInt32).toNat = 57 := rfl
      omega
    have hd2 : c.isDigit = false := by
      simp only [Char.isDigit, Bool.and_eq_false_iff, decide_eq_false_iff_not]
      right
      intro hle
      have h3 : c.val.toNat ≤ (57 : UInt32).toNat := uint32_le_iff_toNat_le.mp hle
      have h4 : c.val.toNat = c.toNat := rfl
      have h57 : (57 : UInt32).toNat = 57 := rfl
      omega
    rw [hd1, hd2]
  next => rfl

theorem toLower_eq_self_of_isDigit {c : Char} (h : c.isDigit = true) :
    Char.toLower c = c := by
  rw [Char.toLower]
  rw [if_neg]
  intro hc
  obtain ⟨h65, _⟩ := hc
  simp only [Char.isDigit, Bool.and_eq_true, decide_eq_true_eq] at h
  have h3 : c.val.toNat ≤ (57 : UInt32).toNat := uint32_le_iff_toNat_le.mp h.2
  have h4 : c.val.toNat = c.toNat := rfl
  have h57 : (57 : UInt32).toNat = 57 := rfl
  omega

/-! ### Helper lemmas: operations on an absent id -/

theorem cleanupSandbox_of_get_none {reg : Registry} {sandboxId : String}
    (h : mapGet reg sandboxId = none) :
    cleanupSandbox reg sandboxId
      = { result := .error .notFound, reg := reg, driverCalls := [] } := by
  unfold cleanupSandbox
  rw [h]

theorem getLast?_append_singleton {α : Type} (l : List α) (a : α) :
    (l ++ [a]).getLast? = some a :=
  List.getLast?_concat l

/-! ### Helper lemmas: `trim` shortens strings with surrounding whitespace -/

theorem jsTrimList_length_lt_of_head {l : List Char} {c : Char}
    (h : l.head? = some c) (hc : jsIsWhitespaceChar c = true) :
    (jsTrimList l).length < l.length := by
  cases l with
  | nil => cases h
  | cons a t =>
    have hac : a = c := by simpa using h
    have hwa : jsIsWhitespaceChar a = true := hac ▸ hc
    unfold jsTrimList
    rw [List.dropWhile_cons, if_pos hwa]
    have h1 : (((t.dropWhile jsIsWhitespaceChar).reverse.dropWhile
        jsIsWhitespaceChar).reverse).length ≤ t.length := by
      rw [List.length_reverse]
      calc ((t.dropWhile jsIsWhitespaceChar).reverse.dropWhile
              jsIsWhitespaceChar).length
          ≤ (t.dropWhile jsIsWhitespaceChar).reverse.length :=
            (List.dropWhile_suffix _).length_le
        _ = (t.dropWhile jsIsWhitespaceChar).length := List.length_reverse _
        _ ≤ t.length := (List.dropWhile_suffix _).length_le
    simp only [List.length_cons]
    omega

theorem jsTrimList_length_lt_of_getLast {l : List Char} {c : Char}
    (h : l.getLast? = some c) (hc : jsIsWhitespaceChar c = true) :
    (jsTrimList l).length < l.length := by
  have hne : l ≠ [] := by
    intro h0
    subst h0
    cases h
  have hpos : 0 < l.length := List.length_pos.mpr hne
  unfold jsTrimList
  cases hd : l.dropWhile jsIsWhitespaceChar with
  | nil =>
      simpa using hpos
  | cons a u =>
    have hsuf : (a :: u) <:+ l := hd ▸ List.dropWhile_suffix _
    have hlast : (a :: u).getLast? = some c := by
      obtain ⟨pre, hpre⟩ := hsuf
      rw [← hpre, List.getLast?_append] at h
      cases hgl : (a :: u).getLast? with
      | none => simp at hgl
      | some d =>
          rw [hgl] at h
          simp only [Option.or] at h
          exact h
    have hrev : (a :: u).reverse.head? = some c := by
      rw [List.head?_reverse]
      exact hlast
    cases hr : (a :: u).reverse with
    | nil => simp at hr
    | cons b v =>
      have hbc : b = c := by
        rw [hr] at hrev
        simpa using hrev
      rw [List.dropWhile_cons, if_pos (hbc ▸ hc)]
      have h1 : (v.dropWhile jsIsWhitespaceChar).length ≤ v.length :=
        (List.dropWhile_suffix _).length_le
      have h2 : (b :: v).length = (a :: u).length := by
        rw [← hr, List.length_reverse]
      have h3 : (a :: u).length ≤ l.length := hsuf.length_le
      rw [List.length_reverse]
      simp only [List.length_cons] at h2 h3
      omega

theorem jsTrim_ne_of_surrounding_ws (s : String)
    (h : (∃ c, s.toList.head? = some c ∧ jsIsWhitespaceChar c = true) ∨
         (∃ c, s.toList.getLast? = some c ∧ jsIsWhitespaceChar c = true)) :
    jsTrim s ≠ s := by
  intro heq
  have hdata : jsTrimList s.toList = s.toList := by
    have h0 := congrArg String.toList heq
    simpa [jsTrim] using h0
  have hlen := congrArg List.length hdata
  rcases h with ⟨c, hc1, hc2⟩ | ⟨c, hc1, hc2⟩
  · exact absurd hlen (Nat.ne_of_lt (jsTrimList_length_lt_of_head hc1 hc2))
  · exact absurd hlen (Nat.ne_of_lt (jsTrimList_length_lt_of_getLast hc1 hc2))

/-! ### Helper lemmas: scheduler -/

theorem cleanup_key_not_mem (r : Registry) (sandboxId : String) :
    ∀ p ∈ (cleanupSandbox r sandboxId).reg, p.1 ≠ sandboxId := by
  cases hg : mapGet r sandboxId with
  | none =>
      rw [cleanupSandbox_of_get_none hg]
      exact (mapGet_eq_none_iff r sandboxId).mp hg
  | some sb =>
      have hreg : (cleanupSandbox r sandboxId).reg = mapDelete r sandboxId := by
        unfold cleanupSandbox
        rw [hg]
      rw [hreg]
      intro p hp
      have hm := List.mem_filter.mp hp
      simpa [bne] using hm.2

/-- If the last scheduled timer is `(ft, id)` and it is due, the sweep runs
`cleanupSandbox id` after every other due timer, so `id` is absent from the
resulting registry. -/
theorem fireDueTimers_last_timer_removes (s1 : SchedState) (now ft : Nat)
    (sandboxId : String) (ts : List (Nat × String))
    (hts : s1.timers = ts ++ [(ft, sandboxId)]) (h : ft ≤ now) :
    ∀ p ∈ (fireDueTimers s1 now).reg, p.1 ≠ sandboxId := by
  unfold fireDueTimers
  rw [hts, List.filter_append]
  have hfil : ([(ft, sandboxId)].filter (fun t => t.1 ≤ now))
      = [(ft, sandboxId)] := by
    simp [h]
  rw [hfil]
  simp only [List.foldl_append, List.foldl_cons, List.foldl_nil]
  exact cleanup_key_not_mem _ _

/-! ### Helper lemmas: `parseMemoryLimit` -/

theorem unitsLookup_isSome_iff (u : Char) :
    (unitsLookup u).isSome = true ↔ u ∈ ['b', 'k', 'm', 'g'] := by
  unfold unitsLookup
  split_ifs <;> simp_all

theorem map_toLower_eq_self_of_digits {ds : List Char}
    (hdig : ∀ c ∈ ds, c.isDigit = true) : ds.map Char.toLower = ds := by
  induction ds with
  | nil => rfl
  | cons a t ih =>
      rw [List.map_cons, toLower_eq_self_of_isDigit (hdig a (List.mem_cons_self a t)),
        ih (fun c hc => hdig c (List.mem_cons_of_mem a hc))]

/-- `parseMemoryLimit` on a string decomposed as digits followed by one
character: the `units` lookup of the lowered unit character times the parsed
integer. -/
theorem parseMemoryLimit_eq_of_decomp (s : String) (ds : List Char) (u : Char)
    (hdec : s.toList = ds ++ [u]) (hne : ds ≠ [])
    (hdig : ∀ c ∈ ds, c.isDigit = true) :
    parseMemoryLimit s
      = (unitsLookup (Char.toLower u)).map (fun m => digitsToNat ds * m) := by
  have hmapid : ds.map Char.toLower = ds := map_toLower_eq_self_of_digits hdig
  have hall : ds.all Char.isDigit = true := List.all_eq_true.mpr hdig
  unfold parseMemoryLimit
  rw [hdec]
  simp only [List.map_append, List.map_cons, List.map_nil, hmapid,
    getLast?_append_singleton, List.dropLast_concat]
  rw [if_pos ⟨hne, hall⟩]

/-! ### Claim theorems -/

/-- **C1** (code bug): the claim requires the isolated unit to be allocated
without an interactive terminal and the decoder to reconstruct the original
per-stream bytes for arbitrary chunk boundaries.  The code does neither:
`createSandbox` passes `Tty: true` to the driver, and the per-chunk decoder
loses bytes when a chunk boundary splits a frame.  Concretely, for the single
stdout frame with payload `[65, 66]` ("AB") delivered as a 9-byte chunk
followed by a 1-byte chunk (a valid split of the exact multiplexed stream),
the decoder yields stdout `[65]` instead of `[65, 66]`. -/
theorem C1_tty_allocation_and_chunk_boundary_loss :
    ((createContainerParams "x" (mergeConfig {})).map ContainerCreateParams.tty
      = some true) ∧
    ([(encodeFrames [⟨1, [65, 66]⟩]).take 9,
      (encodeFrames [⟨1, [65, 66]⟩]).drop 9].flatten
        = encodeFrames [⟨1, [65, 66]⟩]) ∧
    (demuxChunks [(encodeFrames [⟨1, [65, 66]⟩]).take 9,
      (encodeFrames [⟨1, [65, 66]⟩]).drop 9] = ([65], [])) ∧
    (streamBytes [⟨1, [65, 66]⟩] 1 = [65, 66]) ∧
    (demuxChunks [(encodeFrames [⟨1, [65, 66]⟩]).take 9,
        (encodeFrames [⟨1, [65, 66]⟩]).drop 9]
      ≠ (streamBytes [⟨1, [65, 66]⟩] 1, streamBytes [⟨1, [65, 66]⟩] 2)) := by
  refine ⟨rfl, rfl, rfl, rfl, ?_⟩
  decide

/-- **C2** (counterexample): the claim asserts that `stats` on a paused
sandbox is rejected rather than forwarded to the driver.  On a registry whose
only sandbox is `paused` with a live container handle, `getSandboxStats`
forwards the stats request for that handle (`Except.ok "c1"`) instead of
rejecting. -/
theorem C2_stats_forwarded_while_paused :
    (getSandbox pausedReg "s1").map SandboxInfo.status
      = some SandboxStatus.paused ∧
    getSandboxStats pausedReg "s1" = Except.ok "c1" :=
  ⟨rfl, rfl⟩

/-- **C2** (amended): pause succeeds only from `running` and sets `paused`;
resume succeeds only from `paused` and sets `running`; `executeCommand` on a
paused sandbox is rejected with `NotRunning`; but `stats` checks only that the
entry exists and holds a container handle, so on a paused sandbox it is
forwarded to the driver whenever the handle is present. -/
theorem C2_lifecycle_gates_and_stats_handle_check
    (reg : Registry) (sandboxId : String) (sb : SandboxInfo)
    (h : mapGet reg sandboxId = some sb) :
    (sb.status = .running →
        pauseSandbox reg sandboxId true
          = (.ok (), mapSet reg sandboxId { sb with status := .paused })) ∧
    (sb.status ≠ .running →
        ∀ driverOk, (pauseSandbox reg sandboxId driverOk).1
          = .error .notRunning) ∧
    (sb.status = .paused →
        resumeSandbox reg sandboxId true
          = (.ok (), mapSet reg sandboxId { sb with status := .running })) ∧
    (sb.status ≠ .paused →
        ∀ driverOk, (resumeSandbox reg sandboxId driverOk).1
          = .error .notPaused) ∧
    (sb.status = .paused →
        ∀ chunks exitCode, executeInSandbox reg sandboxId chunks exitCode
          = .error .notRunning) ∧
    (sb.status = .paused →
        getSandboxStats reg sandboxId
          = match sb.containerId with
            | none => .error .notFoundOrNotRunning
            | some cid => .ok cid) := by
  refine ⟨?_, ?_, ?_, ?_, ?_, ?_⟩
  · intro hr
    unfold pauseSandbox
    rw [h]
    simp [hr]
  · intro hr driverOk
    unfold pauseSandbox
    rw [h]
    simp [hr]
  · intro hp
    unfold resumeSandbox
    rw [h]
    simp [hp]
  · intro hp driverOk
    unfold resumeSandbox
    rw [h]
    simp [hp]
  · intro hp chunks exitCode
    unfold executeInSandbox
    rw [h]
    simp [hp]
  · intro _hp
    unfold getSandboxStats
    rw [h]

/-- Witness for `C2_lifecycle_gates_and_stats_handle_check` at the concrete
paused registry. -/
theorem C2_lifecycle_gates_witness :
    executeInSandbox pausedReg "s1" [] none = .error .notRunning ∧
    getSandboxStats pausedReg "s1" = .ok "c1" ∧
    (resumeSandbox pausedReg "s1" true).1 = .ok () := by
  have h := C2_lifecycle_gates_and_stats_handle_check pausedReg "s1" pausedInfo rfl
  refine ⟨h.2.2.2.2.1 rfl [] none, h.2.2.2.2.2 rfl, ?_⟩
  rw [h.2.2.1 rfl]

/-- **C3**: when the driver rejects allocation or start, `createSandbox`
raises `createFailed` and the registry retains the new id with status `error`
(neither deleted nor left `creating`). -/
theorem C3_create_driver_failure_leaves_error_entry
    (reg : Registry) (sandboxId name : String) (config : PartialSandboxConfig)
    (now : Nat) (msg : String) :
    (createSandbox reg sandboxId name config now (.error msg)).1
      = .error .createFailed ∧
    mapGet (createSandbox reg sandboxId name config now (.error msg)).2 sandboxId
      = some { id := sandboxId, name := name, status := .error, createdAt := now
               containerId := none, config := mergeConfig config } := by
  unfold createSandbox
  cases hp : createContainerParams sandboxId (mergeConfig config) with
  | none =>
      simp only [hp]
      exact ⟨trivial, mapGet_set_self _ _ _⟩
  | some prm =>
      simp only [hp]
      exact ⟨trivial, mapGet_set_self _ _ _⟩

/-- **C4**: after a successful `cleanup(id)` the registry no longer lists the
id; every subsequent operation on it — including a second `cleanup` — fails
with the not-found error, and the second `cleanup` issues no driver-side
teardown calls. -/
theorem C4_cleanup_removes_and_is_terminal
    (reg : Registry) (sandboxId : String) (sb : SandboxInfo)
    (h : mapGet reg sandboxId = some sb) :
    (cleanupSandbox reg sandboxId).result = .ok () ∧
    mapGet (cleanupSandbox reg sandboxId).reg sandboxId = none ∧
    (∀ p ∈ (cleanupSandbox reg sandboxId).reg, p.1 ≠ sandboxId) ∧
    cleanupSandbox (cleanupSandbox reg sandboxId).reg sandboxId
      = { result := .error .notFound, reg := (cleanupSandbox reg sandboxId).reg
          driverCalls := [] } ∧
    (∀ chunks exitCode,
        executeInSandbox (cleanupSandbox reg sandboxId).reg sandboxId chunks
          exitCode = .error .notFound) ∧
    (∀ driverOk,
        (pauseSandbox (cleanupSandbox reg sandboxId).reg sandboxId driverOk).1
          = .error .notFound) ∧
    (∀ driverOk,
        (resumeSandbox (cleanupSandbox reg sandboxId).reg sandboxId driverOk).1
          = .error .notFound) ∧
    getSandboxStats (cleanupSandbox reg sandboxId).reg sandboxId
      = .error .notFoundOrNotRunning := by
  have hreg : (cleanupSandbox reg sandboxId).reg = mapDelete reg sandboxId := by
    unfold cleanupSandbox
    rw [h]
  have hnone : mapGet (cleanupSandbox reg sandboxId).reg sandboxId = none := by
    rw [hreg]
    exact mapGet_delete_self _ _
  refine ⟨?_, hnone, (mapGet_eq_none_iff _ _).mp hnone,
    cleanupSandbox_of_get_none hnone, ?_, ?_, ?_, ?_⟩
  · unfold cleanupSandbox
    rw [h]
  · intro chunks exitCode
    unfold executeInSandbox
    rw [hnone]
  · intro driverOk
    unfold pauseSandbox
    rw [hnone]
  · intro driverOk
    unfold resumeSandbox
    rw [hnone]
  · unfold getSandboxStats
    rw [hnone]

/-- Witness for `C4_cleanup_removes_and_is_terminal` on a one-sandbox
registry. -/
theorem C4_cleanup_witness :
    (cleanupSandbox runningReg "s0").result = .ok () ∧
    mapGet (cleanupSandbox runningReg "s0").reg "s0" = none ∧
    cleanupSandbox (cleanupSandbox runningReg "s0").reg "s0"
      = { result := .error .notFound, reg := [], driverCalls := [] } := by
  have h := C4_cleanup_removes_and_is_terminal runningReg "s0" runningInfo rfl
  refine ⟨h.1, h.2.1, ?_⟩
  rw [h.2.2.2.1]
  rfl

/-- **C5**: `getContent` without a page id operates on the most recently
inserted page of the context (the last entry of the insertion-ordered page
map), and fails with `PageNotFound` when the context has zero pages. -/
theorem C5_default_page_is_most_recent
    (ctxs : CtxMap) (contextId : String) (c : ManagedContext)
    (contentOf : String → String) (now : Nat)
    (h : mapGet ctxs contextId = some c) (ha : c.status = .active) :
    (∀ ps pid page, c.pages = ps ++ [(pid, page)] →
        getPage ctxs contextId none = .ok page ∧
        (getPageContent ctxs contextId none contentOf now).1
          = .ok (contentOf page)) ∧
    (c.pages = [] →
        getPage ctxs contextId none = .error .pageNotFound ∧
        (getPageContent ctxs contextId none contentOf now).1
          = .error .pageNotFound) := by
  have hg : getManagedContext ctxs contextId = .ok c := by
    unfold getManagedContext
    rw [h]
    simp [ha]
  constructor
  · intro ps pid page hp
    have hl : (List.map (fun p => p.2) c.pages).getLast? = some page := by
      rw [hp, List.map_append]
      exact getLast?_append_singleton _ _
    have hgp : getPage ctxs contextId none = .ok page := by
      unfold getPage
      rw [hg]
      simp [hl]
    refine ⟨hgp, ?_⟩
    unfold getPageContent
    rw [hgp, h]
  · intro hp
    have hgp : getPage ctxs contextId none = .error .pageNotFound := by
      unfold getPage
      rw [hg]
      simp [hp]
    refine ⟨hgp, ?_⟩
    unfold getPageContent
    rw [hgp]

/-- Witness for `C5_default_page_is_most_recent` on a two-page context: the
second-created page is selected, not the first. -/
theorem C5_default_page_witness :
    getPage twoPageCtxs "ctx1" none = .ok "h2" ∧
    (getPageContent twoPageCtxs "ctx1" none (fun h0 => h0 ++ "!") 7).1
      = .ok "h2!" := by
  have h := (C5_default_page_is_most_recent twoPageCtxs "ctx1" twoPageCtx
    (fun h0 => h0 ++ "!") 7 rfl rfl).1 [("p1", "h1")] "p2" "h2" rfl
  exact ⟨h.1, h.2⟩

/-- **C6**: a failure of the caller-supplied script is returned by
`executeJavaScript` as a structured result (`success: false`, the message as
data); when the page lookup succeeds, no evaluation outcome makes the call
raise. -/
theorem C6_script_failure_returned_as_data
    (ctxs : CtxMap) (contextId : String) (pageId : Option String)
    (page : String) (h : getPage ctxs contextId pageId = .ok page) :
    (∀ msg now, (executeJavaScript ctxs contextId pageId (.error msg) now).1
        = .ok { success := false, result := none, error := some msg }) ∧
    (∀ evalOutcome now, ∃ r,
        (executeJavaScript ctxs contextId pageId evalOutcome now).1
          = .ok r) := by
  constructor
  · intro msg now
    unfold executeJavaScript
    rw [h]
  · intro evalOutcome now
    cases evalOutcome with
    | ok v =>
        refine ⟨{ success := true, result := some v, error := none }, ?_⟩
        unfold executeJavaScript
        rw [h]
    | error msg =>
        refine ⟨{ success := false, result := none, error := some msg }, ?_⟩
        unfold executeJavaScript
        rw [h]

/-- Witness for `C6_script_failure_returned_as_data` on a concrete context. -/
theorem C6_script_failure_witness :
    (executeJavaScript twoPageCtxs "ctx1" none
        (.error "ReferenceError: x is not defined") 3).1
      = .ok { success := false, result := none
              error := some "ReferenceError: x is not defined" } :=
  (C6_script_failure_returned_as_data twoPageCtxs "ctx1" none "h2" rfl).1
    "ReferenceError: x is not defined" 3

/-- **C7**: a sandbox successfully created with a non-zero timeout and never
explicitly cleaned up is reclaimed once the timeout elapses: firing the due
timers at any time `now ≥ createdAt + timeout` leaves a registry that no
longer contains the id. -/
theorem C7_auto_cleanup_reclaims
    (s : SchedState) (sandboxId name : String) (config : PartialSandboxConfig)
    (t0 now : Nat) (containerId : String)
    (hmem : parseMemoryLimit (mergeConfig config).memoryLimit ≠ none)
    (hto : (mergeConfig config).timeout ≠ 0)
    (hnow : t0 + (mergeConfig config).timeout ≤ now) :
    mapGet (fireDueTimers
        (createSandboxT s sandboxId name config t0 (.ok containerId)).2
        now).reg sandboxId = none ∧
    (∀ p ∈ (fireDueTimers
        (createSandboxT s sandboxId name config t0 (.ok containerId)).2
        now).reg, p.1 ≠ sandboxId) := by
  have hkey : ∀ p ∈ (fireDueTimers
      (createSandboxT s sandboxId name config t0 (.ok containerId)).2
      now).reg, p.1 ≠ sandboxId := by
    cases hcp : createContainerParams sandboxId (mergeConfig config) with
    | none =>
        exfalso
        cases hpm : parseMemoryLimit (mergeConfig config).memoryLimit with
        | none => exact hmem hpm
        | some m =>
            unfold createContainerParams at hcp
            rw [hpm] at hcp
            cases hcp
    | some prm =>
        have htimers : (createSandboxT s sandboxId name config t0
            (.ok containerId)).2.timers
            = s.timers ++ [(t0 + (mergeConfig config).timeout, sandboxId)] := by
          simp only [createSandboxT, createSandbox, hcp]
          rw [if_pos hto]
        exact fireDueTimers_last_timer_removes _ now
          (t0 + (mergeConfig config).timeout) sandboxId s.timers htimers hnow
  exact ⟨(mapGet_eq_none_iff _ _).mpr hkey, hkey⟩

/-- Witness for `C7_auto_cleanup_reclaims`: the spec scenario — create at
time 0 with `timeout: 100` and no explicit cleanup; at time 150 the sweep has
removed the id. -/
theorem C7_auto_cleanup_witness :
    mapGet (fireDueTimers
        (createSandboxT { reg := [], timers := [] } "sb1" "demo"
          { timeout := some 100 } 0 (.ok "c9")).2 150).reg "sb1" = none :=
  (C7_auto_cleanup_reclaims { reg := [], timers := [] } "sb1" "demo"
    { timeout := some 100 } 0 150 "c9" (by decide) (by decide) (by decide)).1

/-- **C8**: a successful `executeCommand` returns the accumulated decoded
streams with surrounding whitespace removed (`.trim()`), and trimming is not
the identity on any string with leading or trailing whitespace — so the
returned strings differ from the raw per-stream payloads in that case. -/
theorem C8_execute_result_is_trimmed
    (reg : Registry) (sandboxId : String) (sb : SandboxInfo)
    (chunks : List (List Nat)) (exitCode : Option Int)
    (h : mapGet reg sandboxId = some sb) (hr : sb.status = .running) :
    executeInSandbox reg sandboxId chunks exitCode
      = .ok { stdout := jsTrim (bytesToString (demuxChunks chunks).1)
              stderr := jsTrim (bytesToString (demuxChunks chunks).2)
              exitCode := exitCode.getD 0 } ∧
    (∀ s : String,
        ((∃ c, s.toList.head? = some c ∧ jsIsWhitespaceChar c = true) ∨
         (∃ c, s.toList.getLast? = some c ∧ jsIsWhitespaceChar c = true)) →
        jsTrim s ≠ s) := by
  constructor
  · unfold executeInSandbox
    rw [h]
    simp [hr]
  · exact fun s hs => jsTrim_ne_of_surrounding_ws s hs

/-- Witness for `C8_execute_result_is_trimmed`: a command whose stdout frame
carries `"STDOUT\n"` comes back as `"STDOUT"`, and the trailing-newline raw
payload is provably not fixed by `trim`. -/
theorem C8_execute_trimmed_witness :
    executeInSandbox runningReg "s0"
        [[1, 0, 0, 0, 0, 0, 0, 7, 83, 84, 68, 79, 85, 84, 10]] (some 0)
      = .ok { stdout := "STDOUT", stderr := "", exitCode := 0 } ∧
    jsTrim "STDOUT\n" ≠ "STDOUT\n" := by
  have h := C8_execute_result_is_trimmed runningReg "s0" runningInfo
    [[1, 0, 0, 0, 0, 0, 0, 7, 83, 84, 68, 79, 85, 84, 10]] (some 0) rfl rfl
  refine ⟨?_, h.2 "STDOUT\n" (Or.inr ⟨'\n', rfl, rfl⟩)⟩
  rw [h.1]
  rfl

/-- **C9**: a failed navigation returns an error (timeout-class messages map
to `navigationTimeout`, others to `navigationFailed`) — so no page id is
returned — and the context's page map is exactly what it was before the
call. -/
theorem C9_failed_navigation_leaves_pages_unchanged
    (ctxs : CtxMap) (contextId newPageId pageHandle : String) (now : Nat)
    (c : ManagedContext) (msg : String)
    (h : mapGet ctxs contextId = some c) (ha : c.status = .active) :
    (navigate ctxs contextId newPageId pageHandle now (.error msg)).1
      = .error (if errorMessageHasTimeout msg then .navigationTimeout
                else .navigationFailed) ∧
    (mapGet (navigate ctxs contextId newPageId pageHandle now (.error msg)).2
        contextId).map ManagedContext.pages = some c.pages := by
  have hg : getManagedContext ctxs contextId = .ok c := by
    unfold getManagedContext
    rw [h]
    simp [ha]
  unfold navigate
  rw [hg]
  refine ⟨rfl, ?_⟩
  simp [mapGet_set_self]

/-- Witness for `C9_failed_navigation_leaves_pages_unchanged` on a concrete
context and a non-timeout driver failure. -/
theorem C9_failed_navigation_witness :
    (navigate twoPageCtxs "ctx1" "p3" "h3" 9
        (.error "net::ERR_CONNECTION_REFUSED")).1 = .error .navigationFailed ∧
    (mapGet (navigate twoPageCtxs "ctx1" "p3" "h3" 9
        (.error "net::ERR_CONNECTION_REFUSED")).2 "ctx1").map
      ManagedContext.pages = some [("p1", "h1"), ("p2", "h2")] := by
  have h := C9_failed_navigation_leaves_pages_unchanged twoPageCtxs "ctx1"
    "p3" "h3" 9 twoPageCtx "net::ERR_CONNECTION_REFUSED" rfl rfl
  refine ⟨?_, h.2⟩
  rw [h.1]
  rfl

/-- **C10**: the memory-limit string is accepted iff it is an integer
followed by exactly one unit letter among b, k, m, g (case-insensitive);
non-matching strings such as `"512mb"` and `"512"` make creation fail; a
matching string yields the integer times 1, 1024, 1024², or 1024³. -/
theorem C10_memory_limit_format :
    (∀ s : String, (parseMemoryLimit s).isSome = true ↔ specMemoryFormat s) ∧
    parseMemoryLimit "512mb" = none ∧
    parseMemoryLimit "512" = none ∧
    (∀ reg sandboxId name config now driverResp,
        parseMemoryLimit (mergeConfig config).memoryLimit = none →
        (createSandbox reg sandboxId name config now driverResp).1
          = .error .createFailed) ∧
    (∀ ds u m, ds ≠ [] → (∀ c ∈ ds, c.isDigit = true) →
        unitsLookup (Char.toLower u) = some m →
        parseMemoryLimit (String.mk (ds ++ [u]))
          = some (digitsToNat ds * m)) ∧
    parseMemoryLimit "512m" = some (512 * 1024 ^ 2) ∧
    parseMemoryLimit "1b" = some 1 ∧
    parseMemoryLimit "2K" = some (2 * 1024) ∧
    parseMemoryLimit "3G" = some (3 * 1024 ^ 3) := by
  refine ⟨?_, rfl, rfl, ?_, ?_, rfl, rfl, rfl, rfl⟩
  · intro s
    constructor
    · intro hsome
      have hne0 : s.toList ≠ [] := by
        intro h0
        unfold parseMemoryLimit at hsome
        rw [h0] at hsome
        simp at hsome
      obtain ⟨ds, u, hdec⟩ : ∃ ds u, s.toList = ds ++ [u] :=
        ⟨_, _, (List.dropLast_append_getLast hne0).symm⟩
      unfold parseMemoryLimit at hsome
      rw [hdec] at hsome
      simp only [List.map_append, List.map_cons, List.map_nil,
        getLast?_append_singleton, List.dropLast_concat] at hsome
      by_cases hcond :
          ds.map Char.toLower ≠ [] ∧ (ds.map Char.toLower).all Char.isDigit = true
      · rw [if_pos hcond] at hsome
        obtain ⟨h1, h2⟩ := hcond
        have hdig : ∀ c ∈ ds, c.isDigit = true := by
          intro c hc
          have := List.all_eq_true.mp h2 (Char.toLower c)
            (List.mem_map.mpr ⟨c, hc, rfl⟩)
          rw [isDigit_toLower] at this
          exact this
        have hdsne : ds ≠ [] := by
          intro h0
          rw [h0] at h1
          simp at h1
        have humem : Char.toLower u ∈ ['b', 'k', 'm', 'g'] := by
          rw [← unitsLookup_isSome_iff]
          simpa using hsome
        exact ⟨ds, u, hdec, hdsne, hdig, humem⟩
      · rw [if_neg hcond] at hsome
        simp at hsome
    · rintro ⟨ds, u, hdec, hne, hdig, hu⟩
      rw [parseMemoryLimit_eq_of_decomp s ds u hdec hne hdig]
      obtain ⟨m, hm⟩ : ∃ m, unitsLookup (Char.toLower u) = some m := by
        rcases (by simpa using hu : Char.toLower u = 'b' ∨ Char.toLower u = 'k'
            ∨ Char.toLower u = 'm' ∨ Char.toLower u = 'g')
          with h | h | h | h <;>
          exact ⟨_, by rw [h]; rfl⟩
      rw [hm]
      rfl
  · intro reg sandboxId name config now driverResp hpm
    unfold createSandbox createContainerParams
    simp only [hpm, Option.map_none']
  · intro ds u m hne hdig hm
    rw [parseMemoryLimit_eq_of_decomp (String.mk (ds ++ [u])) ds u rfl hne hdig,
      hm]
    rfl

/-- Witness for `C10_memory_limit_format` at concrete inputs. -/
theorem C10_memory_limit_witness :
    specMemoryFormat "512m" ∧
    parseMemoryLimit (String.mk (['5', '1', '2'] ++ ['m'])) = some 536870912 := by
  refine ⟨(C10_memory_limit_format.1 "512m").mp (by decide), ?_⟩
  have h := C10_memory_limit_format.2.2.2.2.1 ['5', '1', '2'] 'm' (1024 ^ 2)
    (by decide) (by decide) (by decide)
  rw [h]
  rfl

end EFetch
